import Mathlib

/-!
Verification of the DEM (digital elevation model) chunked-fetch pipeline:
a shallow embedding of `src/pipeline/dem_fetcher.py`,
`src/pipeline/dem_fetcher_raw.py`, `src/pipeline/wcs_geotiff_handler.py` and
the status writers of `app/dem_operations.py`, together with theorems about
the request planner, chunk-grid geometry, retry loops, georeferencing, the
merge step, the status ledger and the orchestration traces.

Geographic coordinates, resolutions and progress percentages are modelled as
exact rationals (`ℚ`); Python `int(...)` truncation and `//` floor division
are modelled explicitly.
-/

namespace DemManager

/-! ### Definitions -/

/-- Bounding box in WGS84 degrees, the Python tuple `(minx, miny, maxx, maxy)`. -/
structure BBox where
  minLon : ℚ
  minLat : ℚ
  maxLon : ℚ
  maxLat : ℚ
deriving DecidableEq, Repr

/-- The data-model invariant on bounding boxes: `minLon < maxLon`, `minLat < maxLat`. -/
def BBox.valid (b : BBox) : Prop := b.minLon < b.maxLon ∧ b.minLat < b.maxLat

instance (b : BBox) : Decidable b.valid := by unfold BBox.valid; infer_instance

/-- `self.width_deg = bbox[2] - bbox[0]` -/
def widthDeg (b : BBox) : ℚ := b.maxLon - b.minLon

/-- `self.height_deg = bbox[3] - bbox[1]` -/
def heightDeg (b : BBox) : ℚ := b.maxLat - b.minLat

/-- Python `int(...)` truncates toward zero. -/
def pyInt (q : ℚ) : ℤ := if 0 ≤ q then ⌊q⌋ else ⌈q⌉

/-- `self.approx_res_deg = target_res_meters / 111000` (flat-earth conversion). -/
def approxResDeg (res : ℚ) : ℚ := res / 111000

/-- `self.required_width = int(self.width_deg / self.approx_res_deg)` -/
def requiredWidth (b : BBox) (res : ℚ) : ℤ := pyInt (widthDeg b / approxResDeg res)

/-- `self.required_height = int(self.height_deg / self.approx_res_deg)` -/
def requiredHeight (b : BBox) (res : ℚ) : ℤ := pyInt (heightDeg b / approxResDeg res)

/-- `self.max_request_size = 4000` -/
def maxRequestSize : ℤ := 4000

/-- `self.split_requests = max(1, max(required_width, required_height) // max_request_size + 1)`
(identical in `dem_fetcher.py` and `dem_fetcher_raw.py`); Python `//` is floor
division, i.e. `Int.fdiv`. -/
def splitRequests (b : BBox) (res : ℚ) : ℤ :=
  max 1 (Int.fdiv (max (requiredWidth b res) (requiredHeight b res)) maxRequestSize + 1)

/-- The grid size as the spec words it:
`gridSize = max(1, ceil(max(requiredW, requiredH) / maxRequestPx))`.
Stated from the spec only, to be compared against `splitRequests`. -/
def specGridSize (b : BBox) (res : ℚ) : ℤ :=
  max 1 ⌈((max (requiredWidth b res) (requiredHeight b res) : ℤ) : ℚ) / (maxRequestSize : ℚ)⌉

/-- `DEMFetcher.get_chunk_bbox` of `dem_fetcher.py`: the max corner is computed
as `bbox[0] + (col + 1) * chunk_width_deg`. -/
def getChunkBbox (b : BBox) (row col rows cols : ℕ) : BBox where
  minLon := b.minLon + (col : ℚ) * (widthDeg b / cols)
  minLat := b.minLat + (row : ℚ) * (heightDeg b / rows)
  maxLon := b.minLon + ((col : ℚ) + 1) * (widthDeg b / cols)
  maxLat := b.minLat + ((row : ℚ) + 1) * (heightDeg b / rows)

/-- `DEMFetcher.get_chunk_bbox` of `dem_fetcher_raw.py`: the max corner is
computed as `chunk_minx + chunk_width_deg`. -/
def getChunkBboxRaw (b : BBox) (row col rows cols : ℕ) : BBox where
  minLon := b.minLon + (col : ℚ) * (widthDeg b / cols)
  minLat := b.minLat + (row : ℚ) * (heightDeg b / rows)
  maxLon := b.minLon + (col : ℚ) * (widthDeg b / cols) + widthDeg b / cols
  maxLat := b.minLat + (row : ℚ) * (heightDeg b / rows) + heightDeg b / rows

/-- The closed rectangle of (lon, lat) points covered by a bbox. -/
def BBox.rect (b : BBox) : Set (ℚ × ℚ) :=
  {p | b.minLon ≤ p.1 ∧ p.1 ≤ b.maxLon ∧ b.minLat ≤ p.2 ∧ p.2 ≤ b.maxLat}

/-- The open rectangle strictly inside a bbox. -/
def BBox.inner (b : BBox) : Set (ℚ × ℚ) :=
  {p | b.minLon < p.1 ∧ p.1 < b.maxLon ∧ b.minLat < p.2 ∧ p.2 < b.maxLat}

/-- A status-file record, restricted to the fields the claims concern.
A missing JSON key is `none`. -/
structure StatusRecord where
  status : String
  progress : Option ℚ
  message : String
  displayName : Option String
  dataType : Option String
deriving DecidableEq, Repr

/-- `DEMFetcher.update_status` (identical in `dem_fetcher.py` and
`dem_fetcher_raw.py`): opens the status file in write mode and dumps a fresh
object holding only `status`, `progress`, `message`, `timestamp`, replacing
whatever record was there before. -/
def updateStatus (status : String) (progress : ℚ) (message : String) :
    StatusRecord → StatusRecord :=
  fun _ => ⟨status, some progress, message, none, none⟩

/-- The `downloading` progress write of `fetch_dem_thread`
(`app/dem_operations.py`): dumps a fresh object that re-supplies
`display_name` and `dataType` from the values read from the record when the
thread started (no `progress` key is written). -/
def demOpsProgressWrite (dn dt : Option String) : StatusRecord → StatusRecord :=
  fun _ => ⟨"downloading", none, "Fetching DEM data...", dn, dt⟩

/-- The final success write of `fetch_dem_thread` (`app/dem_operations.py`):
`status_data.update({'status': 'complete', ...})` followed by dumping
`status_data` — a read-modify-write that keeps every other field. -/
def demOpsCompleteWrite (rec : StatusRecord) : StatusRecord :=
  { rec with status := "complete", message := "DEM download complete" }

/-- One HTTP attempt's outcome, carrying what a fetch loop branches on. -/
inductive Attempt
  /-- HTTP 200: whether the Content-Type matches the expected raster type,
  whether the body looks like an HTML/JSON error page, the saved body size in
  bytes, and whether a small body contains an `error`/`exception` marker. -/
  | ok (contentTypeMatches : Bool) (looksErrorPage : Bool) (fileSize : ℕ)
      (bodyHasErrorText : Bool)
  /-- HTTP response with a non-200 status code. -/
  | httpError (code : ℕ)
  /-- The request raised an exception (timeout, connection error, ...). -/
  | exc
deriving DecidableEq, Repr

/-- An attempt that did not yield an HTTP 200 payload. -/
def Attempt.failed : Attempt → Bool
  | .ok _ _ _ _ => false
  | .httpError _ => true
  | .exc => true

/-- The retry loop of `DEMFetcher.export_image_chunk` in `dem_fetcher_raw.py`
(`for attempt in range(self.max_retries)`, `max_retries = 3`), processing the
listed attempt indices. Returns the result (`some fileSize` stands for the
saved chunk path), the sleep schedule in seconds, and the attempts made. -/
def exportChunkRawGo (resp : ℕ → Attempt) (maxRetries : ℕ) :
    List ℕ → Option ℕ × List ℕ × ℕ
  | [] => (none, [], 0)
  | attempt :: rest =>
    match resp attempt with
    | .ok ctm lep fs het =>
      if !ctm && lep then
        if attempt < maxRetries - 1 then
          let r := exportChunkRawGo resp maxRetries rest
          (r.1, 2 ^ attempt :: r.2.1, r.2.2 + 1)
        else (none, [], 1)
      else if fs < 1000 && het then
        if attempt < maxRetries - 1 then
          let r := exportChunkRawGo resp maxRetries rest
          (r.1, 2 ^ attempt :: r.2.1, r.2.2 + 1)
        else (none, [], 1)
      else (some fs, [], 1)
    | .httpError _ =>
      if attempt < maxRetries - 1 then
        let r := exportChunkRawGo resp maxRetries rest
        (r.1, 2 ^ attempt :: r.2.1, r.2.2 + 1)
      else (none, [], 1)
    | .exc =>
      if attempt < maxRetries - 1 then
        let r := exportChunkRawGo resp maxRetries rest
        (r.1, 2 ^ attempt :: r.2.1, r.2.2 + 1)
      else (none, [], 1)

/-- `DEMFetcher.export_image_chunk` (`dem_fetcher_raw.py`): 3 attempts. -/
def exportImageChunkRaw (resp : ℕ → Attempt) : Option ℕ × List ℕ × ℕ :=
  exportChunkRawGo resp 3 [0, 1, 2]

/-- The retry loop of `fetch_tile` in `wcs_geotiff_handler.py`:
`max_retries = 3`, `retry_delay = 2`, `for attempt in range(max_retries + 1)`
with a constant 2-second sleep before every retry attempt; any HTTP 200 is
accepted with no validation. -/
def fetchTileGo (resp : ℕ → Attempt) (maxRetries : ℕ) :
    List ℕ → Bool × List ℕ × ℕ
  | [] => (false, [], 0)
  | attempt :: rest =>
    let pre : List ℕ := if 0 < attempt then [2] else []
    match resp attempt with
    | .ok _ _ _ _ => (true, pre, 1)
    | .httpError _ =>
      if attempt < maxRetries then
        let r := fetchTileGo resp maxRetries rest
        (r.1, pre ++ r.2.1, r.2.2 + 1)
      else (false, pre, 1)
    | .exc =>
      if attempt < maxRetries then
        let r := fetchTileGo resp maxRetries rest
        (r.1, pre ++ r.2.1, r.2.2 + 1)
      else (false, pre, 1)

/-- `fetch_tile` (`wcs_geotiff_handler.py`): up to 4 attempts. -/
def fetchTile (resp : ℕ → Attempt) : Bool × List ℕ × ℕ :=
  fetchTileGo resp 3 [0, 1, 2, 3]

/-- What C5 claims of an all-attempts-fail fetch run: an error result, an
attempt budget of about 3, and exponential `2 ^ attempt`-second sleeps between
the attempts actually made. -/
def C5ClaimedRun (failed : Bool) (sleeps : List ℕ) (attempts : ℕ) : Prop :=
  failed = false ∧ attempts ≤ 3 ∧
    sleeps = (List.range (attempts - 1)).map (fun a => 2 ^ a)

instance (f : Bool) (s : List ℕ) (a : ℕ) : Decidable (C5ClaimedRun f s a) := by
  unfold C5ClaimedRun; infer_instance

/-- A 6-parameter affine transform in rasterio's `Affine(a, b, c, d, e, f)`
ordering: x pixel size, row rotation, x origin, column rotation, y pixel size
(negative for north-up), y origin. -/
structure Affine where
  a : ℚ
  b : ℚ
  c : ℚ
  d : ℚ
  e : ℚ
  f : ℚ
deriving DecidableEq, Repr

/-- `rasterio.transform.from_origin(west, north, xsize, ysize)`
is `Affine(xsize, 0, west, 0, -ysize, north)`. -/
def fromOrigin (west north xsize ysize : ℚ) : Affine :=
  ⟨xsize, 0, west, 0, -ysize, north⟩

/-- The metadata of an on-disk raster chunk as the georeferencer reads it. -/
structure SrcRaster where
  width : ℕ
  height : ℕ
  count : ℕ
  dtype : String
  nodata : Option ℚ
  readable : Bool
deriving DecidableEq, Repr

/-- The metadata of the GeoTIFF written by the georeferencer. -/
structure GeoTiffOut where
  width : ℕ
  height : ℕ
  count : ℕ
  dtype : String
  crs : String
  transform : Affine
  nodata : Option ℚ
deriving DecidableEq, Repr

/-- `DEMFetcher.add_georeference_to_chunk` of `dem_fetcher.py`: resolution is
bbox span over the chunk's own pixel dimensions, the transform is anchored at
`(minx, maxy)`, CRS is EPSG:4326, and `nodata=src.nodata` verbatim. An
unreadable source raises inside the try and yields `None`. -/
def addGeoreferenceToChunk (src : SrcRaster) (bbox : BBox) : Option GeoTiffOut :=
  if src.readable then
    some { width := src.width, height := src.height, count := src.count,
           dtype := src.dtype, crs := "EPSG:4326",
           transform := fromOrigin bbox.minLon bbox.maxLat
             ((bbox.maxLon - bbox.minLon) / src.width)
             ((bbox.maxLat - bbox.minLat) / src.height),
           nodata := src.nodata }
  else none

/-- `DEMFetcher.add_georeference_to_chunk` of `dem_fetcher_raw.py`: same
transform and CRS, but a source without a nodata value gets `-9999`. -/
def addGeoreferenceToChunkRaw (src : SrcRaster) (bbox : BBox) : Option GeoTiffOut :=
  if src.readable then
    some { width := src.width, height := src.height, count := src.count,
           dtype := src.dtype, crs := "EPSG:4326",
           transform := fromOrigin bbox.minLon bbox.maxLat
             ((bbox.maxLon - bbox.minLon) / src.width)
             ((bbox.maxLat - bbox.minLat) / src.height),
           nodata := some (src.nodata.getD (-9999)) }
  else none

/-- `DEMFetcher.merge_geotiff_chunks` of `dem_fetcher_raw.py`: every input is
opened inside its own try/except and skipped with a logged error on failure;
if no input survives the merge fails; otherwise the result is whether the
`rasterio.merge` + output write step succeeds (`mergeWriteOk`). -/
def mergeGeotiffChunksRaw (readable : List Bool) (mergeWriteOk : Bool) : Bool :=
  if (readable.filter (fun r => r)).isEmpty then false else mergeWriteOk

/-- The merge stage of `fetch_geotiff_dem_tiled` (`wcs_geotiff_handler.py`):
unreadable tiles are skipped with a warning; failure iff no tile survives or
the merge/write errors. -/
def wcsMergeStage (readable : List Bool) (mergeWriteOk : Bool) : Bool :=
  if (readable.filter (fun r => r)).isEmpty then false else mergeWriteOk

/-- `DEMFetcher.merge_geotiff_chunks` of `dem_fetcher.py`: all inputs are
opened in one list comprehension inside a single try/except, so any unreadable
input (or an empty input list, which makes `merge` raise) fails the merge. -/
def mergeGeotiffChunks (readable : List Bool) (mergeWriteOk : Bool) : Bool :=
  if readable.all (fun r => r) && !readable.isEmpty then mergeWriteOk else false

/-- Pipeline job statuses written to the status file. -/
inductive St
  | starting
  | downloading
  | processing
  | complete
  | failed
deriving DecidableEq, Repr

/-- Files the orchestrator can copy to the output path: a downloaded chunk or
its georeferenced rewrite. Chunk `0` stands for the single-request chunk
(`"full"`); multi-chunk indices are the 1-based `current_chunk` counter. -/
inductive FileRef
  | chunkFile (i : ℕ)
  | georefFile (i : ℕ)
deriving DecidableEq, Repr

/-- Observable pipeline events: status-file writes, chunk export requests,
georeferencing calls, copies to the output path, and merge invocations. -/
inductive Event
  | status (s : St) (progress : ℚ)
  | exportChunk (i : ℕ)
  | georef (i : ℕ)
  | copy (src : FileRef)
  | mergeCall
deriving DecidableEq, Repr

/-- Result of `download_high_res_dem`: the returned boolean, or an uncaught
exception escaping the method. -/
inductive Outcome
  | ok (b : Bool)
  | exc
deriving DecidableEq, Repr

/-- The per-job environment: which external effects succeed. -/
structure Env where
  serviceOk : Bool
  chunkOk : ℕ → Bool
  georefOk : ℕ → Bool
  copyOk : Bool
  mergeOk : Bool
  verifyOk : Bool
  outputExists : Bool

/-- The multi-chunk download loop of `DEMFetcher.download_high_res_dem`
(`dem_fetcher.py`, lines 578-606): `idxs` are the remaining 1-based chunk
indices, `total` the total chunk count, `files` the successfully downloaded
chunk indices so far, `failed` the failure count. Progress is
`5 + (current/total) * 45`; after each failure the loop aborts when
`failed > total * 0.2` (0.2 is exact here; for the perfect-square chunk counts
the code produces, the float comparison agrees with the rational one).
Returns (events, files, failed, aborted). -/
def dlLoop (env : Env) (total : ℕ) : List ℕ → List ℕ → ℕ → List Event × List ℕ × ℕ × Bool
  | [], files, failed => ([], files, failed, false)
  | i :: rest, files, failed =>
    let p : ℚ := 5 + ((i : ℚ) / total) * 45
    if env.chunkOk i then
      let r := dlLoop env total rest (files ++ [i]) failed
      (.status .downloading p :: .exportChunk i :: r.1, r.2)
    else if ((failed : ℚ) + 1) > (total : ℚ) * (2 / 10) then
      ([.status .downloading p, .exportChunk i, .status .failed p], files, failed + 1, true)
    else
      let r := dlLoop env total rest files (failed + 1)
      (.status .downloading p :: .exportChunk i :: r.1, r.2)

/-- The georeferencing loop of the multi-chunk RAW path (`dem_fetcher.py`,
lines 646-655): `n = len(chunk_files)`, `j` the 0-based enumeration index;
progress is `50 + ((j+1)/n) * 30`. Returns (events, georeferenced chunks). -/
def geoLoop (env : Env) (n : ℕ) : List ℕ → ℕ → List Event × List ℕ
  | [], _ => ([], [])
  | i :: rest, j =>
    let p : ℚ := 50 + (((j : ℚ) + 1) / n) * 30
    let r := geoLoop env n rest (j + 1)
    (.status .processing p :: .georef i :: r.1,
      if env.georefOk i then i :: r.2 else r.2)

/-- `DEMFetcher.download_high_res_dem` of `dem_fetcher.py` as a trace of
events plus the returned outcome, for `split = self.split_requests` and
`dt = self.data_type`. In the multi-chunk RAW branch the final merge calls
`self.merge_chunks`, a method that does not exist on the class, so that branch
raises `AttributeError` inside its `try` and fails at progress 85 before any
merge work happens; no `mergeCall` event is ever emitted by this module. In
the single-chunk RAW branch the `shutil.copy2` call is outside any
try/except, so a copy failure escapes as an exception. -/
def downloadHighResDem (split : ℕ) (dt : String) (env : Env) : List Event × Outcome :=
  if !env.serviceOk then ([.status .failed 0], .ok false)
  else if split = 1 then
    let pre : List Event := [.status .downloading 10, .exportChunk 0]
    if env.chunkOk 0 then
      if dt = "rgb" then
        if env.copyOk then
          (pre ++ [.status .processing 80, .copy (.chunkFile 0), .status .complete 100],
            .ok true)
        else
          (pre ++ [.status .processing 80, .copy (.chunkFile 0), .status .failed 90],
            .ok false)
      else if dt = "raw" then
        if env.georefOk 0 then
          if env.copyOk then
            if env.verifyOk then
              (pre ++ [.status .processing 50, .georef 0, .status .processing 80,
                .copy (.georefFile 0), .status .processing 90, .status .complete 100],
                .ok true)
            else
              (pre ++ [.status .processing 50, .georef 0, .status .processing 80,
                .copy (.georefFile 0), .status .processing 90, .status .failed 95],
                .ok false)
          else
            (pre ++ [.status .processing 50, .georef 0, .status .processing 80,
              .copy (.georefFile 0)], .exc)
        else
          (pre ++ [.status .processing 50, .georef 0, .status .failed 60], .ok false)
      else
        (pre ++ [.status .failed 50], .ok false)
    else
      (pre ++ [.status .failed 20], .ok false)
  else
    let total := split * split
    let l := dlLoop env total (List.range' 1 total) [] 0
    let pre := Event.status .downloading 5 :: l.1
    if l.2.2.2 then (pre, .ok false)
    else if l.2.1.isEmpty then (pre ++ [.status .failed 50], .ok false)
    else if dt = "rgb" then
      if env.copyOk then
        (pre ++ [.status .processing 80, .copy (.chunkFile (l.2.1.headD 0)),
          .status .complete 100], .ok true)
      else
        (pre ++ [.status .processing 80, .copy (.chunkFile (l.2.1.headD 0)),
          .status .failed 90], .ok false)
    else if dt = "raw" then
      let g := geoLoop env l.2.1.length l.2.1 0
      let pre2 := pre ++ Event.status .processing 50 :: g.1
      if g.2.isEmpty then (pre2 ++ [.status .failed 80], .ok false)
      else (pre2 ++ [.status .processing 80, .status .failed 85], .ok false)
    else
      (pre ++ [.status .failed 50], .ok false)

/-- `fetch_dem` of `dem_fetcher.py`: writes `starting` (progress 0) and then
runs `download_high_res_dem`. -/
def fetchDem (split : ℕ) (dt : String) (env : Env) : List Event × Outcome :=
  let r := downloadHighResDem split dt env
  (.status .starting 0 :: r.1, r.2)

/-- The column loop of `DEMFetcher.download_high_res_dem`
(`dem_fetcher_raw.py`): consecutive 1-based chunk indices; progress
`(current-1)/total * 50` while downloading and `50 + (current-1)/total * 25`
while georeferencing a just-downloaded chunk. Returns (events,
georeferenced chunks of this row). -/
def rawColLoop (env : Env) (total : ℕ) : List ℕ → List Event × List ℕ
  | [] => ([], [])
  | i :: rest =>
    let p : ℚ := ((i : ℚ) - 1) / total * 50
    let r := rawColLoop env total rest
    if env.chunkOk i then
      let p2 : ℚ := 50 + ((i : ℚ) - 1) / total * 25
      (.status .downloading p :: .exportChunk i :: .status .processing p2 :: .georef i :: r.1,
        if env.georefOk i then i :: r.2 else r.2)
    else
      (.status .downloading p :: .exportChunk i :: r.1, r.2)

/-- The row loop of `DEMFetcher.download_high_res_dem` (`dem_fetcher_raw.py`):
because of the loop's indentation, the merge-and-verify block runs after
every row, merging the chunks georeferenced so far; on merge+verify success it
returns `True` immediately, otherwise it silently continues with the next
row. Falling out of the loop writes `failed` with progress 0. -/
def rawRowLoop (env : Env) (split total : ℕ) (georefs : List ℕ) :
    List ℕ → List Event × Outcome
  | [] => ([.status .failed 0], .ok false)
  | row :: rows =>
    let c := rawColLoop env total (List.range' (row * split + 1) split)
    let georefs2 := georefs ++ c.2
    if georefs2.isEmpty then
      let r := rawRowLoop env split total georefs2 rows
      (c.1 ++ r.1, r.2)
    else
      let evs := c.1 ++ [Event.status .processing 75, Event.mergeCall]
      if env.mergeOk then
        if env.verifyOk then
          (evs ++ [.status .processing 90, .status .complete 100], .ok true)
        else
          let r := rawRowLoop env split total georefs2 rows
          (evs ++ Event.status .processing 90 :: r.1, r.2)
      else
        let r := rawRowLoop env split total georefs2 rows
        (evs ++ r.1, r.2)

/-- `DEMFetcher.download_high_res_dem` of `dem_fetcher_raw.py`: returns
`True` immediately (with no status write) when the output file already
exists; otherwise writes `downloading 0` and runs the row loop over a
`split × split` grid. -/
def rawDownloadHighResDem (split : ℕ) (env : Env) : List Event × Outcome :=
  if env.outputExists then ([], .ok true)
  else
    let r := rawRowLoop env split (split * split) [] (List.range split)
    (.status .downloading 0 :: r.1, r.2)

/-- `fetch_dem` of `dem_fetcher_raw.py`: writes `starting` then downloads. -/
def rawFetchDem (split : ℕ) (env : Env) : List Event × Outcome :=
  let r := rawDownloadHighResDem split env
  (.status .starting 0 :: r.1, r.2)

/-- The statuses written to the status file, in order. -/
def statuses (evs : List Event) : List St :=
  evs.filterMap fun e =>
    match e with
    | .status s _ => some s
    | _ => none

/-- The progress values written to the status file, in order. -/
def progresses (evs : List Event) : List ℚ :=
  evs.filterMap fun e =>
    match e with
    | .status _ p => some p
    | _ => none

/-- The files copied to the output path, in order. -/
def copies (evs : List Event) : List FileRef :=
  evs.filterMap fun e =>
    match e with
    | .copy f => some f
    | _ => none

/-- Collapse consecutive duplicates (the distinct stages, in order). -/
def collapse : List St → List St
  | [] => []
  | [s] => [s]
  | s :: t :: rest => if s = t then collapse (t :: rest) else s :: collapse (t :: rest)

/-- An environment where every external effect succeeds. -/
def envAllOk : Env :=
  ⟨true, fun _ => true, fun _ => true, true, true, true, false⟩

/-- An environment where only chunk 1 downloads successfully. -/
def envFirstChunkOnly : Env :=
  ⟨true, fun i => i == 1, fun _ => true, true, true, true, false⟩

/-! ### Theorems -/

lemma requiredWidth_nonneg (b : BBox) (res : ℚ) (hb : b.valid) (hres : 0 < res) :
    0 ≤ requiredWidth b res := by
  have hw : 0 < widthDeg b := sub_pos.mpr hb.1
  have hr : 0 < approxResDeg res := by
    unfold approxResDeg; positivity
  have hq : 0 ≤ widthDeg b / approxResDeg res := le_of_lt (div_pos hw hr)
  unfold requiredWidth pyInt
  rw [if_pos hq]
  exact Int.floor_nonneg.mpr hq

lemma requiredHeight_nonneg (b : BBox) (res : ℚ) (hb : b.valid) (hres : 0 < res) :
    0 ≤ requiredHeight b res := by
  have hw : 0 < heightDeg b := sub_pos.mpr hb.2
  have hr : 0 < approxResDeg res := by
    unfold approxResDeg; positivity
  have hq : 0 ≤ heightDeg b / approxResDeg res := le_of_lt (div_pos hw hr)
  unfold requiredHeight pyInt
  rw [if_pos hq]
  exact Int.floor_nonneg.mpr hq

/-- The rational ceiling of `m / 4000` expressed through integer (Euclidean) division. -/
lemma ceil_div_4000 (m : ℤ) :
    ⌈(m : ℚ) / ((maxRequestSize : ℤ) : ℚ)⌉ = -((-m) / 4000) := by
  have h1 : ((m : ℚ) / ((maxRequestSize : ℤ) : ℚ)) = -(((-m : ℤ) : ℚ) / ((4000 : ℕ) : ℚ)) := by
    unfold maxRequestSize; push_cast; ring
  rw [h1, Int.ceil_neg, Rat.floor_intCast_div_natCast]
  norm_num

/-- C1, amended: the code's grid size is `max(1, m // 4000 + 1)` with floor
division, which agrees with the spec formula `max(1, ceil(m / 4000))` except
when `m` is a positive exact multiple of 4000, where the code returns the
quotient plus one. -/
theorem C1_grid_size (b : BBox) (res : ℚ) (hb : b.valid) (hres : 0 < res) :
    splitRequests b res =
      if maxRequestSize ∣ max (requiredWidth b res) (requiredHeight b res) ∧
          0 < max (requiredWidth b res) (requiredHeight b res) then
        Int.fdiv (max (requiredWidth b res) (requiredHeight b res)) maxRequestSize + 1
      else specGridSize b res := by
  have hm : 0 ≤ max (requiredWidth b res) (requiredHeight b res) :=
    le_trans (requiredWidth_nonneg b res hb hres) (le_max_left _ _)
  set m := max (requiredWidth b res) (requiredHeight b res) with hmdef
  have hfd : Int.fdiv m maxRequestSize = m / 4000 := by
    have h := Int.fdiv_eq_ediv m (b := maxRequestSize) (by unfold maxRequestSize; norm_num)
    simpa [maxRequestSize] using h
  unfold splitRequests specGridSize
  rw [← hmdef, hfd, ceil_div_4000]
  have h4 : maxRequestSize = (4000 : ℤ) := rfl
  rw [h4]
  split <;> omega

/-- C1 counterexample input: bbox `(152, -28, 152.48828125, -27.51171875)`
(width and height `125/256` of a degree, both ends exactly representable in
binary floating point) at `111000/8192 = 13.5498046875` m/px gives
`approx_res_deg = 1/8192` and required dimensions exactly
`4000 = maxRequestSize`, with no rounding in either rational or IEEE-754
arithmetic; the code computes grid size 2 while the claimed formula
`max(1, ceil(4000/4000))` gives 1. -/
lemma requiredWidth_counterexample :
    requiredWidth ⟨152, -28, 152 + 125/256, -28 + 125/256⟩ (111000/8192) = 4000 := by
  have hq : widthDeg ⟨152, -28, 152 + 125/256, -28 + 125/256⟩ /
      approxResDeg (111000/8192) = 4000 := by
    unfold widthDeg approxResDeg; norm_num
  unfold requiredWidth
  rw [hq]
  unfold pyInt
  norm_num

lemma requiredHeight_counterexample :
    requiredHeight ⟨152, -28, 152 + 125/256, -28 + 125/256⟩ (111000/8192) = 4000 := by
  have hq : heightDeg ⟨152, -28, 152 + 125/256, -28 + 125/256⟩ /
      approxResDeg (111000/8192) = 4000 := by
    unfold heightDeg approxResDeg; norm_num
  unfold requiredHeight
  rw [hq]
  unfold pyInt
  norm_num

theorem C1_counterexample :
    splitRequests ⟨152, -28, 152 + 125/256, -28 + 125/256⟩ (111000/8192) = 2 ∧
    specGridSize ⟨152, -28, 152 + 125/256, -28 + 125/256⟩ (111000/8192) = 1 := by
  constructor
  · unfold splitRequests
    rw [requiredWidth_counterexample, requiredHeight_counterexample, max_self]
    have h : Int.fdiv 4000 maxRequestSize = 1 := rfl
    rw [h]
    norm_num
  · unfold specGridSize
    rw [requiredWidth_counterexample, requiredHeight_counterexample, max_self, ceil_div_4000]
    norm_num

/-- C1 witness: the amended grid-size theorem instantiated at the
counterexample bbox, where the exact-multiple branch applies. -/
theorem C1_grid_size_witness :
    BBox.valid ⟨152, -28, 152 + 125/256, -28 + 125/256⟩ ∧ (0 : ℚ) < 111000/8192 ∧
      splitRequests ⟨152, -28, 152 + 125/256, -28 + 125/256⟩ (111000/8192) =
        if maxRequestSize ∣ max
              (requiredWidth ⟨152, -28, 152 + 125/256, -28 + 125/256⟩ (111000/8192))
              (requiredHeight ⟨152, -28, 152 + 125/256, -28 + 125/256⟩ (111000/8192)) ∧
            0 < max
              (requiredWidth ⟨152, -28, 152 + 125/256, -28 + 125/256⟩ (111000/8192))
              (requiredHeight ⟨152, -28, 152 + 125/256, -28 + 125/256⟩ (111000/8192)) then
          Int.fdiv (max
              (requiredWidth ⟨152, -28, 152 + 125/256, -28 + 125/256⟩ (111000/8192))
              (requiredHeight ⟨152, -28, 152 + 125/256, -28 + 125/256⟩ (111000/8192)))
            maxRequestSize + 1
        else specGridSize ⟨152, -28, 152 + 125/256, -28 + 125/256⟩ (111000/8192) :=
  ⟨by constructor <;> norm_num, by norm_num,
    C1_grid_size ⟨152, -28, 152 + 125/256, -28 + 125/256⟩ (111000/8192)
      (by constructor <;> norm_num) (by norm_num)⟩

/-- In exact arithmetic the two variants of `get_chunk_bbox` agree. -/
lemma getChunkBboxRaw_eq (b : BBox) (row col rows cols : ℕ) :
    getChunkBboxRaw b row col rows cols = getChunkBbox b row col rows cols := by
  unfold getChunkBboxRaw getChunkBbox
  congr 1 <;> ring

/-- Any point of `[L, R]` lies in the `k`-th of `n` equal subintervals for some `k < n`. -/
lemma oneD_cover (L R : ℚ) (n : ℕ) (hn : 0 < n) (x : ℚ) (h1 : L ≤ x) (h2 : x ≤ R) :
    ∃ k : ℕ, k < n ∧ L + (k : ℚ) * ((R - L) / n) ≤ x ∧
      x ≤ L + ((k : ℚ) + 1) * ((R - L) / n) := by
  set d : ℚ := (R - L) / n with hd
  have hn0 : (0 : ℚ) < n := by exact_mod_cast hn
  have hLR : L ≤ R := h1.trans h2
  have hnd : L + (n : ℚ) * d = R := by
    rw [hd]; field_simp
  rcases eq_or_lt_of_le hLR with hEq | hLt
  · refine ⟨0, hn, ?_, ?_⟩
    · have hd0 : d = 0 := by rw [hd, ← hEq]; simp
      rw [hd0]; simpa using h1
    · have hd0 : d = 0 := by rw [hd, ← hEq]; simp
      rw [hd0]; simpa [← hEq] using h2
  · have hdpos : 0 < d := by rw [hd]; exact div_pos (sub_pos.mpr hLt) hn0
    set j : ℤ := ⌊(x - L) / d⌋ with hj
    have hj0 : 0 ≤ j := Int.floor_nonneg.mpr (div_nonneg (sub_nonneg.mpr h1) hdpos.le)
    by_cases hcase : j < (n : ℤ)
    · refine ⟨j.toNat, ?_, ?_, ?_⟩
      · omega
      · have hfl : (j : ℚ) ≤ (x - L) / d := Int.floor_le _
        have : (j : ℚ) * d ≤ x - L := (le_div_iff hdpos).mp hfl
        have hjc : ((j.toNat : ℕ) : ℚ) = (j : ℚ) := by
          exact_mod_cast Int.toNat_of_nonneg hj0
        rw [hjc]; linarith
      · have hfl : (x - L) / d < (j : ℚ) + 1 := Int.lt_floor_add_one _
        have : x - L < ((j : ℚ) + 1) * d := (div_lt_iff hdpos).mp hfl
        have hjc : ((j.toNat : ℕ) : ℚ) = (j : ℚ) := by
          exact_mod_cast Int.toNat_of_nonneg hj0
        rw [hjc]; linarith
    · have hnj : (n : ℚ) ≤ (j : ℚ) := by exact_mod_cast not_lt.mp hcase
      have hfl : (j : ℚ) ≤ (x - L) / d := Int.floor_le _
      have hxR : R ≤ x := by
        have : (n : ℚ) * d ≤ x - L := (le_div_iff hdpos).mp (hnj.trans hfl)
        linarith
      have hxeq : x = R := le_antisymm h2 hxR
      refine ⟨n - 1, by omega, ?_, ?_⟩
      · have hcast : ((n - 1 : ℕ) : ℚ) = (n : ℚ) - 1 := by
          have h1n : (1 : ℕ) ≤ n := hn
          push_cast [h1n]; ring
        rw [hcast, hxeq]
        nlinarith
      · have hcast : ((n - 1 : ℕ) : ℚ) = (n : ℚ) - 1 := by
          have h1n : (1 : ℕ) ≤ n := hn
          push_cast [h1n]; ring
        rw [hcast, hxeq]
        nlinarith

/-- Two distinct open subintervals of the equal subdivision are disjoint. -/
lemma slot_disjoint (L d : ℚ) (hd : 0 ≤ d) (k k' : ℕ) (hkk : k < k') (x : ℚ)
    (h2 : x < L + ((k : ℚ) + 1) * d) (h1 : L + (k' : ℚ) * d < x) : False := by
  have hle : ((k : ℚ) + 1) ≤ (k' : ℚ) := by exact_mod_cast hkk
  nlinarith [mul_le_mul_of_nonneg_right hle hd]

lemma chunk_sub_rect (b : BBox) (rows cols r c : ℕ) (hb : b.valid)
    (hr : 0 < rows) (hc : 0 < cols) (hrlt : r < rows) (hclt : c < cols) :
    (getChunkBbox b r c rows cols).rect ⊆ b.rect := by
  intro p hp
  simp only [BBox.rect, getChunkBbox, Set.mem_setOf_eq] at hp ⊢
  obtain ⟨h1, h2, h3, h4⟩ := hp
  have hw : 0 ≤ widthDeg b / cols :=
    div_nonneg (le_of_lt (sub_pos.mpr hb.1)) (Nat.cast_nonneg cols)
  have hh : 0 ≤ heightDeg b / rows :=
    div_nonneg (le_of_lt (sub_pos.mpr hb.2)) (Nat.cast_nonneg rows)
  have hcols0 : ((cols : ℚ)) ≠ 0 := by
    exact_mod_cast Nat.pos_iff_ne_zero.mp hc
  have hrows0 : ((rows : ℚ)) ≠ 0 := by
    exact_mod_cast Nat.pos_iff_ne_zero.mp hr
  have hcC : (cols : ℚ) * (widthDeg b / cols) = widthDeg b := by field_simp
  have hrC : (rows : ℚ) * (heightDeg b / rows) = heightDeg b := by field_simp
  have hcle : ((c : ℚ) + 1) ≤ (cols : ℚ) := by exact_mod_cast hclt
  have hrle : ((r : ℚ) + 1) ≤ (rows : ℚ) := by exact_mod_cast hrlt
  have hc1 : ((c : ℚ) + 1) * (widthDeg b / cols) ≤ widthDeg b := by
    have h := mul_le_mul_of_nonneg_right hcle hw
    rwa [hcC] at h
  have hr1 : ((r : ℚ) + 1) * (heightDeg b / rows) ≤ heightDeg b := by
    have h := mul_le_mul_of_nonneg_right hrle hh
    rwa [hrC] at h
  have hcnn : (0 : ℚ) ≤ (c : ℚ) * (widthDeg b / cols) :=
    mul_nonneg (Nat.cast_nonneg c) hw
  have hrnn : (0 : ℚ) ≤ (r : ℚ) * (heightDeg b / rows) :=
    mul_nonneg (Nat.cast_nonneg r) hh
  have hwd : widthDeg b = b.maxLon - b.minLon := rfl
  have hhd : heightDeg b = b.maxLat - b.minLat := rfl
  exact ⟨by linarith, by linarith, by linarith, by linarith⟩

/-- C2: each chunk of the `rows × cols` grid has angular width `widthDeg / cols`
and height `heightDeg / rows`; horizontally and vertically adjacent chunks share
their boundary edge exactly; the union of all chunk rectangles is exactly the
original bbox rectangle; and the open interiors of distinct chunks are disjoint. -/
theorem C2_chunk_grid_partition (b : BBox) (rows cols : ℕ) (hb : b.valid)
    (hr : 0 < rows) (hc : 0 < cols) :
    (∀ row col, widthDeg (getChunkBbox b row col rows cols) = widthDeg b / cols ∧
      heightDeg (getChunkBbox b row col rows cols) = heightDeg b / rows) ∧
    (∀ row col, (getChunkBbox b row col rows cols).maxLon =
        (getChunkBbox b row (col + 1) rows cols).minLon ∧
      (getChunkBbox b row col rows cols).maxLat =
        (getChunkBbox b (row + 1) col rows cols).minLat) ∧
    (⋃ r : Fin rows, ⋃ c : Fin cols, (getChunkBbox b r c rows cols).rect) = b.rect ∧
    (∀ r c r' c', r < rows → c < cols → r' < rows → c' < cols → (r, c) ≠ (r', c') →
      (getChunkBbox b r c rows cols).inner ∩ (getChunkBbox b r' c' rows cols).inner = ∅) := by
  have hw : 0 ≤ widthDeg b / cols :=
    div_nonneg (le_of_lt (sub_pos.mpr hb.1)) (Nat.cast_nonneg cols)
  have hh : 0 ≤ heightDeg b / rows :=
    div_nonneg (le_of_lt (sub_pos.mpr hb.2)) (Nat.cast_nonneg rows)
  refine ⟨?_, ?_, ?_, ?_⟩
  · intro row col
    constructor <;> (simp only [widthDeg, heightDeg, getChunkBbox]; ring)
  · intro row col
    constructor <;> (unfold getChunkBbox; push_cast; ring)
  · apply Set.Subset.antisymm
    · simp only [Set.iUnion_subset_iff]
      intro r c
      exact chunk_sub_rect b rows cols r c hb hr hc r.isLt c.isLt
    · intro p hp
      simp only [BBox.rect, Set.mem_setOf_eq] at hp
      obtain ⟨h1, h2, h3, h4⟩ := hp
      obtain ⟨kc, hkc, hkc1, hkc2⟩ := oneD_cover b.minLon b.maxLon cols hc p.1 h1 h2
      obtain ⟨kr, hkr, hkr1, hkr2⟩ := oneD_cover b.minLat b.maxLat rows hr p.2 h3 h4
      refine Set.mem_iUnion.mpr ⟨⟨kr, hkr⟩, Set.mem_iUnion.mpr ⟨⟨kc, hkc⟩, ?_⟩⟩
      simp only [BBox.rect, getChunkBbox, Set.mem_setOf_eq, widthDeg, heightDeg]
      exact ⟨hkc1, hkc2, hkr1, hkr2⟩
  · intro r c r' c' hrlt hclt hrlt2 hclt2 hne
    rw [Set.eq_empty_iff_forall_not_mem]
    rintro p ⟨hp1, hp2⟩
    simp only [BBox.inner, getChunkBbox, Set.mem_setOf_eq] at hp1 hp2
    obtain ⟨a1, a2, a3, a4⟩ := hp1
    obtain ⟨b1, b2, b3, b4⟩ := hp2
    have hcc : c ≠ c' ∨ r ≠ r' := by
      by_contra hcon
      push_neg at hcon
      exact hne (by rw [hcon.2, hcon.1])
    rcases hcc with hcne | hrne
    · rcases Nat.lt_or_ge c c' with hlt | hge
      · exact slot_disjoint b.minLon (widthDeg b / cols) hw c c' hlt p.1 a2 b1
      · exact slot_disjoint b.minLon (widthDeg b / cols) hw c' c
          (Nat.lt_of_le_of_ne hge (Ne.symm hcne)) p.1 b2 a1
    · rcases Nat.lt_or_ge r r' with hlt | hge
      · exact slot_disjoint b.minLat (heightDeg b / rows) hh r r' hlt p.2 a4 b3
      · exact slot_disjoint b.minLat (heightDeg b / rows) hh r' r
          (Nat.lt_of_le_of_ne hge (Ne.symm hrne)) p.2 b4 a3

/-- C2 witness: the partition theorem instantiated on the unit bbox with a 2×2 grid. -/
theorem C2_chunk_grid_partition_witness :
    BBox.valid ⟨0, 0, 1, 1⟩ ∧ 0 < 2 ∧
      (⋃ r : Fin 2, ⋃ c : Fin 2, (getChunkBbox ⟨0, 0, 1, 1⟩ r c 2 2).rect) =
        BBox.rect ⟨0, 0, 1, 1⟩ :=
  ⟨by constructor <;> norm_num, by norm_num,
    (C2_chunk_grid_partition ⟨0, 0, 1, 1⟩ 2 2 (by constructor <;> norm_num)
      (by norm_num) (by norm_num)).2.2.1⟩

/-- C4 counterexample: a record created at job start with `display_name` and
`data_type` set loses both fields as soon as `DEMFetcher.update_status`
performs its first write. -/
theorem C4_counterexample :
    (updateStatus "downloading" 10 "Downloading chunk 1/4..."
        ⟨"starting", some 0, "Initializing DEM download...", some "Test DEM", some "raw"⟩).displayName
      = none ∧
    (updateStatus "downloading" 10 "Downloading chunk 1/4..."
        ⟨"starting", some 0, "Initializing DEM download...", some "Test DEM", some "raw"⟩).dataType
      = none ∧
    (⟨"starting", some 0, "Initializing DEM download...", some "Test DEM", some "raw"⟩ :
      StatusRecord).displayName = some "Test DEM" ∧
    (⟨"starting", some 0, "Initializing DEM download...", some "Test DEM", some "raw"⟩ :
      StatusRecord).dataType = some "raw" :=
  ⟨rfl, rfl, rfl, rfl⟩

/-- C4, amended: the status writes in `app/dem_operations.py` preserve
`display_name`/`dataType` (the completion write by read-modify-write, the
progress write by re-supplying the values read at thread start), but
`DEMFetcher.update_status` replaces the whole record and always leaves both
fields absent. -/
theorem C4_field_preservation (rec : StatusRecord) (dn dt : Option String)
    (s m : String) (p : ℚ) (hdn : dn = rec.displayName) (hdt : dt = rec.dataType) :
    ((demOpsCompleteWrite rec).displayName = rec.displayName ∧
      (demOpsCompleteWrite rec).dataType = rec.dataType) ∧
    ((demOpsProgressWrite dn dt rec).displayName = rec.displayName ∧
      (demOpsProgressWrite dn dt rec).dataType = rec.dataType) ∧
    ((updateStatus s p m rec).displayName = none ∧
      (updateStatus s p m rec).dataType = none) := by
  subst hdn hdt
  exact ⟨⟨rfl, rfl⟩, ⟨rfl, rfl⟩, rfl, rfl⟩

/-- C4 witness: the preservation theorem at a concrete record. -/
theorem C4_field_preservation_witness :
    (some "Test DEM" : Option String) =
        (⟨"starting", some 0, "init", some "Test DEM", some "raw"⟩ : StatusRecord).displayName ∧
      ((updateStatus "processing" 50 "Georeferencing..."
        ⟨"starting", some 0, "init", some "Test DEM", some "raw"⟩).displayName = none ∧
      (updateStatus "processing" 50 "Georeferencing..."
        ⟨"starting", some 0, "init", some "Test DEM", some "raw"⟩).dataType = none) :=
  ⟨rfl, (C4_field_preservation ⟨"starting", some 0, "init", some "Test DEM", some "raw"⟩
    (some "Test DEM") (some "raw") "processing" "Georeferencing..." 50 rfl rfl).2.2⟩

/-- C5 counterexample: `fetch_tile` against a service that always returns
HTTP 500 makes 4 attempts with a constant 2-second delay, not 3 attempts with
exponential backoff. -/
theorem C5_counterexample :
    fetchTile (fun _ => .httpError 500) = (false, [2, 2, 2], 4) ∧
    ¬C5ClaimedRun (fetchTile (fun _ => .httpError 500)).1
      (fetchTile (fun _ => .httpError 500)).2.1
      (fetchTile (fun _ => .httpError 500)).2.2 := by
  constructor
  · rfl
  · decide

/-- C5, amended: when every attempt fails, `export_image_chunk`
(`dem_fetcher_raw.py`) makes exactly 3 attempts with exponential
`2 ^ attempt`-second backoff (sleeps 1 s, 2 s) and returns `None`, while
`fetch_tile` (`wcs_geotiff_handler.py`) makes 4 attempts with a constant
2-second delay and returns `False`; neither raises. -/
theorem C5_retry_exhaustion (resp resp2 : ℕ → Attempt)
    (h : ∀ i, (resp i).failed = true) (h2 : ∀ i, (resp2 i).failed = true) :
    exportImageChunkRaw resp = (none, [1, 2], 3) ∧
    fetchTile resp2 = (false, [2, 2, 2], 4) := by
  constructor
  · have h0 := h 0
    have h1 := h 1
    have h2' := h 2
    unfold exportImageChunkRaw exportChunkRawGo
    rcases hr0 : resp 0 with _ | _ | _ <;> rw [hr0] at h0 <;>
      simp only [Attempt.failed] at h0 <;>
      rcases hr1 : resp 1 with _ | _ | _ <;> rw [hr1] at h1 <;>
        simp only [Attempt.failed] at h1 <;>
        rcases hr2 : resp 2 with _ | _ | _ <;> rw [hr2] at h2' <;>
          simp only [Attempt.failed] at h2' <;>
          simp_all [exportChunkRawGo]
  · have h0 := h2 0
    have h1 := h2 1
    have h2' := h2 2
    have h3 := h2 3
    unfold fetchTile fetchTileGo
    rcases hr0 : resp2 0 with _ | _ | _ <;> rw [hr0] at h0 <;>
      simp only [Attempt.failed] at h0 <;>
      rcases hr1 : resp2 1 with _ | _ | _ <;> rw [hr1] at h1 <;>
        simp only [Attempt.failed] at h1 <;>
        rcases hr2 : resp2 2 with _ | _ | _ <;> rw [hr2] at h2' <;>
          simp only [Attempt.failed] at h2' <;>
          rcases hr3 : resp2 3 with _ | _ | _ <;> rw [hr3] at h3 <;>
            simp only [Attempt.failed] at h3 <;>
            simp_all [fetchTileGo]

/-- C5 witness: the amended theorem at the constant all-HTTP-500 responder. -/
theorem C5_retry_exhaustion_witness :
    (∀ i : ℕ, ((fun _ : ℕ => Attempt.httpError 500) i).failed = true) ∧
      exportImageChunkRaw (fun _ => .httpError 500) = (none, [1, 2], 3) ∧
      fetchTile (fun _ => .httpError 500) = (false, [2, 2, 2], 4) :=
  ⟨fun _ => rfl,
    C5_retry_exhaustion (fun _ => .httpError 500) (fun _ => .httpError 500)
      (fun _ => rfl) (fun _ => rfl)⟩

/-- C6 counterexample: for a readable source chunk with no nodata value, the
raw-variant georeferencer writes nodata `-9999`, which does not equal the
source's (absent) nodata value. -/
theorem C6_counterexample :
    (addGeoreferenceToChunkRaw ⟨100, 100, 1, "float32", none, true⟩ ⟨0, 0, 1, 1⟩).map
        GeoTiffOut.nodata = some (some (-9999)) ∧
    (⟨100, 100, 1, "float32", none, true⟩ : SrcRaster).nodata = none :=
  ⟨rfl, rfl⟩

/-- C6, amended: for every readable chunk, both georeferencers write a file
whose transform is `from_origin(minx, maxy, span/width, span/height)` with CRS
EPSG:4326, preserving band count, datatype, and — in `dem_fetcher.py` — the
nodata value verbatim; `dem_fetcher_raw.py` preserves the nodata value only
when the source has one and substitutes `-9999` when it is absent. -/
theorem C6_georeference (src : SrcRaster) (bbox : BBox) (h : src.readable = true) :
    addGeoreferenceToChunk src bbox =
      some ⟨src.width, src.height, src.count, src.dtype, "EPSG:4326",
        fromOrigin bbox.minLon bbox.maxLat ((bbox.maxLon - bbox.minLon) / src.width)
          ((bbox.maxLat - bbox.minLat) / src.height), src.nodata⟩ ∧
    addGeoreferenceToChunkRaw src bbox =
      some ⟨src.width, src.height, src.count, src.dtype, "EPSG:4326",
        fromOrigin bbox.minLon bbox.maxLat ((bbox.maxLon - bbox.minLon) / src.width)
          ((bbox.maxLat - bbox.minLat) / src.height), some (src.nodata.getD (-9999))⟩ ∧
    (∀ v, src.nodata = some v →
      (addGeoreferenceToChunkRaw src bbox).map GeoTiffOut.nodata = some (some v)) := by
  refine ⟨?_, ?_, ?_⟩
  · simp [addGeoreferenceToChunk, h]
  · simp [addGeoreferenceToChunkRaw, h]
  · intro v hv
    simp [addGeoreferenceToChunkRaw, h, hv]

/-- C6 witness: the georeference theorem at a concrete readable chunk. -/
theorem C6_georeference_witness :
    (⟨200, 100, 1, "float32", some (-3.4), true⟩ : SrcRaster).readable = true ∧
      addGeoreferenceToChunk ⟨200, 100, 1, "float32", some (-3.4), true⟩ ⟨152, -28, 153, -27⟩ =
        some ⟨200, 100, 1, "float32", "EPSG:4326",
          fromOrigin 152 (-27) ((153 - 152) / 200) ((-27 - -28) / 100), some (-3.4)⟩ :=
  ⟨rfl, (C6_georeference ⟨200, 100, 1, "float32", some (-3.4), true⟩
    ⟨152, -28, 153, -27⟩ rfl).1⟩

/-- C7 counterexample: in `dem_fetcher.py`, one unreadable input among
otherwise readable inputs fails the whole merge, although the claim predicts
success. -/
theorem C7_counterexample :
    mergeGeotiffChunks [true, false] true = false ∧
    ([true, false].any (fun r => r) && true) = true :=
  ⟨rfl, rfl⟩

lemma filter_isEmpty_eq_not_any (l : List Bool) :
    (l.filter (fun r => r)).isEmpty = !l.any (fun r => r) := by
  induction l with
  | nil => rfl
  | cons a t ih => cases a <;> simp_all [List.filter_cons]

/-- C7, amended: the raw fetcher's merge and the WCS tiled merge skip
unreadable inputs and fail exactly when no readable input survives or the
merge/write itself errors; the `dem_fetcher.py` merge instead fails as soon as
any input is unreadable (or the input list is empty). -/
theorem C7_merge_failure_policy (readable : List Bool) (mergeWriteOk : Bool) :
    mergeGeotiffChunksRaw readable mergeWriteOk =
        (readable.any (fun r => r) && mergeWriteOk) ∧
    wcsMergeStage readable mergeWriteOk =
        (readable.any (fun r => r) && mergeWriteOk) ∧
    mergeGeotiffChunks readable mergeWriteOk =
        (readable.all (fun r => r) && !readable.isEmpty && mergeWriteOk) := by
  refine ⟨?_, ?_, ?_⟩
  · unfold mergeGeotiffChunksRaw
    rw [filter_isEmpty_eq_not_any]
    cases hany : readable.any (fun r => r) <;> simp
  · unfold wcsMergeStage
    rw [filter_isEmpty_eq_not_any]
    cases hany : readable.any (fun r => r) <;> simp
  · unfold mergeGeotiffChunks
    cases hall : readable.all (fun r => r) <;>
      cases hemp : readable.isEmpty <;> simp

@[simp] lemma statuses_nil : statuses [] = [] := rfl

@[simp] lemma statuses_cons_status (s : St) (p : ℚ) (rest : List Event) :
    statuses (Event.status s p :: rest) = s :: statuses rest := rfl

@[simp] lemma statuses_cons_export (i : ℕ) (rest : List Event) :
    statuses (Event.exportChunk i :: rest) = statuses rest := rfl

@[simp] lemma statuses_cons_georef (i : ℕ) (rest : List Event) :
    statuses (Event.georef i :: rest) = statuses rest := rfl

@[simp] lemma statuses_cons_copy (f : FileRef) (rest : List Event) :
    statuses (Event.copy f :: rest) = statuses rest := rfl

@[simp] lemma statuses_cons_merge (rest : List Event) :
    statuses (Event.mergeCall :: rest) = statuses rest := rfl

@[simp] lemma statuses_append (l1 l2 : List Event) :
    statuses (l1 ++ l2) = statuses l1 ++ statuses l2 :=
  List.filterMap_append l1 l2 _

@[simp] lemma progresses_nil : progresses [] = [] := rfl

@[simp] lemma progresses_cons_status (s : St) (p : ℚ) (rest : List Event) :
    progresses (Event.status s p :: rest) = p :: progresses rest := rfl

@[simp] lemma progresses_cons_export (i : ℕ) (rest : List Event) :
    progresses (Event.exportChunk i :: rest) = progresses rest := rfl

@[simp] lemma progresses_cons_georef (i : ℕ) (rest : List Event) :
    progresses (Event.georef i :: rest) = progresses rest := rfl

@[simp] lemma progresses_cons_copy (f : FileRef) (rest : List Event) :
    progresses (Event.copy f :: rest) = progresses rest := rfl

@[simp] lemma progresses_cons_merge (rest : List Event) :
    progresses (Event.mergeCall :: rest) = progresses rest := rfl

@[simp] lemma progresses_append (l1 l2 : List Event) :
    progresses (l1 ++ l2) = progresses l1 ++ progresses l2 :=
  List.filterMap_append l1 l2 _

@[simp] lemma copies_nil : copies [] = [] := rfl

@[simp] lemma copies_cons_status (s : St) (p : ℚ) (rest : List Event) :
    copies (Event.status s p :: rest) = copies rest := rfl

@[simp] lemma copies_cons_export (i : ℕ) (rest : List Event) :
    copies (Event.exportChunk i :: rest) = copies rest := rfl

@[simp] lemma copies_cons_georef (i : ℕ) (rest : List Event) :
    copies (Event.georef i :: rest) = copies rest := rfl

@[simp] lemma copies_cons_copy (f : FileRef) (rest : List Event) :
    copies (Event.copy f :: rest) = f :: copies rest := rfl

@[simp] lemma copies_cons_merge (rest : List Event) :
    copies (Event.mergeCall :: rest) = copies rest := rfl

@[simp] lemma copies_append (l1 l2 : List Event) :
    copies (l1 ++ l2) = copies l1 ++ copies l2 :=
  List.filterMap_append l1 l2 _

/-- Abort characterization of the multi-chunk download loop: starting below
the threshold, the loop aborts iff the total failure count over the remaining
chunks would exceed `total * 0.2`. -/
lemma dlLoop_abort_iff (env : Env) (total : ℕ) (idxs : List ℕ) (files : List ℕ)
    (failed : ℕ) (hinv : (failed : ℚ) ≤ (total : ℚ) * (2 / 10)) :
    ((dlLoop env total idxs files failed).2.2.2 = true ↔
      ((failed : ℚ) + (idxs.countP (fun i => !env.chunkOk i) : ℚ) >
        (total : ℚ) * (2 / 10))) := by
  induction idxs generalizing files failed with
  | nil =>
    simp only [dlLoop, List.countP_nil, Nat.cast_zero, add_zero]
    constructor
    · intro h; exact absurd h (by simp)
    · intro h; exact absurd hinv (not_le.mpr h)
  | cons i rest ih =>
    by_cases hok : env.chunkOk i = true
    · have hcount : (i :: rest).countP (fun j => !env.chunkOk j) =
          rest.countP (fun j => !env.chunkOk j) := by
        rw [List.countP_cons]
        simp [hok]
      rw [hcount]
      simpa [dlLoop, hok] using ih (files ++ [i]) failed hinv
    · have hokf : env.chunkOk i = false := by
        cases henv : env.chunkOk i
        · rfl
        · exact absurd henv hok
      have hcount : ((i :: rest).countP (fun j => !env.chunkOk j) : ℚ) =
          (rest.countP (fun j => !env.chunkOk j) : ℚ) + 1 := by
        rw [List.countP_cons]
        simp [hokf]
      by_cases habort : ((failed : ℚ) + 1) > (total : ℚ) * (2 / 10)
      · simp only [dlLoop, hokf, Bool.false_eq_true, if_false, if_pos habort]
        constructor
        · intro _
          have hnn : (0 : ℚ) ≤ (rest.countP (fun j => !env.chunkOk j) : ℚ) := by positivity
          rw [hcount]
          linarith
        · intro _; trivial
      · have hinv2 : ((failed + 1 : ℕ) : ℚ) ≤ (total : ℚ) * (2 / 10) := by
          push_cast
          linarith [not_lt.mp habort]
        have := ih files (failed + 1) hinv2
        simp only [dlLoop, hokf, Bool.false_eq_true, if_false, if_neg habort]
        rw [this, hcount]
        constructor <;> intro h <;> (push_cast at h ⊢; linarith)

/-- When the loop aborts, a `failed` status was written. -/
lemma dlLoop_abort_failed (env : Env) (total : ℕ) (idxs : List ℕ) (files : List ℕ)
    (failed : ℕ) (h : (dlLoop env total idxs files failed).2.2.2 = true) :
    St.failed ∈ statuses (dlLoop env total idxs files failed).1 := by
  induction idxs generalizing files failed with
  | nil => simp [dlLoop] at h
  | cons i rest ih =>
    by_cases hok : env.chunkOk i = true
    · have h' := h
      simp only [dlLoop, hok, if_true] at h' ⊢
      simpa using ih (files ++ [i]) failed h'
    · have hokf : env.chunkOk i = false := by
        cases henv : env.chunkOk i
        · rfl
        · exact absurd henv hok
      by_cases habort : ((failed : ℚ) + 1) > (total : ℚ) * (2 / 10)
      · simp [dlLoop, hokf, habort, statuses]
      · have h' := h
        simp only [dlLoop, hokf, Bool.false_eq_true, if_false, if_neg habort] at h' ⊢
        simpa using ih files (failed + 1) h'

/-- When the loop does not abort: the downloaded files are the chunks whose
download succeeds, every status written is `downloading`, and the progress
values are `5 + (i/total) * 45` in chunk order. -/
lemma dlLoop_no_abort_spec (env : Env) (total : ℕ) (idxs : List ℕ) (files : List ℕ)
    (failed : ℕ) (h : (dlLoop env total idxs files failed).2.2.2 = false) :
    (dlLoop env total idxs files failed).2.1 =
        files ++ idxs.filter (fun i => env.chunkOk i) ∧
    statuses (dlLoop env total idxs files failed).1 =
        List.replicate idxs.length St.downloading ∧
    progresses (dlLoop env total idxs files failed).1 =
        idxs.map (fun i : ℕ => 5 + ((i : ℚ) / (total : ℚ)) * 45) := by
  induction idxs generalizing files failed with
  | nil => simp [dlLoop]
  | cons i rest ih =>
    by_cases hok : env.chunkOk i = true
    · have h' : (dlLoop env total rest (files ++ [i]) failed).2.2.2 = false := by
        simpa [dlLoop, hok] using h
      obtain ⟨h1, h2, h3⟩ := ih (files ++ [i]) failed h'
      refine ⟨?_, ?_, ?_⟩ <;>
        simp [dlLoop, hok, h1, h2, h3, List.replicate_succ, List.filter_cons]
    · have hokf : env.chunkOk i = false := by
        cases henv : env.chunkOk i
        · rfl
        · exact absurd henv hok
      by_cases habort : ((failed : ℚ) + 1) > (total : ℚ) * (2 / 10)
      · exfalso
        have : (dlLoop env total (i :: rest) files failed).2.2.2 = true := by
          simp [dlLoop, hokf, habort]
        rw [this] at h
        exact Bool.noConfusion h
      · have h' : (dlLoop env total rest files (failed + 1)).2.2.2 = false := by
          simpa [dlLoop, hokf, habort] using h
        obtain ⟨h1, h2, h3⟩ := ih files (failed + 1) h'
        refine ⟨?_, ?_, ?_⟩ <;>
          simp [dlLoop, hokf, habort, h1, h2, h3, List.replicate_succ, List.filter_cons]

/-- C10: in the multi-chunk download loop the job aborts with a `failed`
status exactly when the failure count exceeds 20% of the total chunk count;
when the threshold is never exceeded and at least one chunk succeeded, the
job goes on to a `processing` stage instead of failing at the loop. -/
theorem C10_abort_threshold (split : ℕ) (dt : String) (env : Env)
    (hdt : dt = "rgb" ∨ dt = "raw") (hs : 2 ≤ split) (hsvc : env.serviceOk = true) :
    ((dlLoop env (split * split) (List.range' 1 (split * split)) [] 0).2.2.2 = true ↔
      (((List.range' 1 (split * split)).countP (fun i => !env.chunkOk i) : ℚ) >
        ((split * split : ℕ) : ℚ) * (2 / 10))) ∧
    ((((List.range' 1 (split * split)).countP (fun i => !env.chunkOk i) : ℚ) >
        ((split * split : ℕ) : ℚ) * (2 / 10)) →
      (downloadHighResDem split dt env).2 = .ok false ∧
      St.failed ∈ statuses (downloadHighResDem split dt env).1) ∧
    ((((List.range' 1 (split * split)).countP (fun i => !env.chunkOk i) : ℚ) ≤
        ((split * split : ℕ) : ℚ) * (2 / 10)) →
      (List.range' 1 (split * split)).countP (fun i => !env.chunkOk i) < split * split →
      St.processing ∈ statuses (downloadHighResDem split dt env).1) := by
  have hzero : ((0 : ℕ) : ℚ) ≤ ((split * split : ℕ) : ℚ) * (2 / 10) := by positivity
  have hiff := dlLoop_abort_iff env (split * split) (List.range' 1 (split * split)) [] 0
    (by simpa using hzero)
  have hsne : ¬(split = 1) := by omega
  refine ⟨by simpa using hiff, ?_, ?_⟩
  · intro hgt
    have hab : (dlLoop env (split * split) (List.range' 1 (split * split)) [] 0).2.2.2 = true := by
      rw [hiff]; simpa using hgt
    have hmem := dlLoop_abort_failed env (split * split) (List.range' 1 (split * split)) [] 0 hab
    constructor
    · simp [downloadHighResDem, hsvc, hsne, hab]
    · simp [downloadHighResDem, hsvc, hsne, hab]
      exact hmem
  · intro hle hlt
    have hab : (dlLoop env (split * split) (List.range' 1 (split * split)) [] 0).2.2.2 = false := by
      cases hcase : (dlLoop env (split * split) (List.range' 1 (split * split)) [] 0).2.2.2
      · rfl
      · exfalso
        rw [hiff] at hcase
        simp only [Nat.cast_zero, zero_add] at hcase
        exact absurd hle (not_le.mpr hcase)
    obtain ⟨hfiles, _, _⟩ := dlLoop_no_abort_spec env (split * split)
      (List.range' 1 (split * split)) [] 0 hab
    have hne : (dlLoop env (split * split) (List.range' 1 (split * split)) [] 0).2.1.isEmpty
        = false := by
      rw [hfiles]
      simp only [List.nil_append]
      cases hf : (List.range' 1 (split * split)).filter (fun i => env.chunkOk i) with
      | nil =>
        exfalso
        have hcnt : (List.range' 1 (split * split)).countP (fun i => env.chunkOk i) = 0 := by
          rw [List.countP_eq_length_filter, hf]
          rfl
        have hlen := List.length_eq_countP_add_countP (fun i => env.chunkOk i)
          (List.range' 1 (split * split))
        rw [List.length_range'] at hlen
        have hcongr : (List.range' 1 (split * split)).countP
            (fun a => decide ¬(env.chunkOk a) = true) =
            (List.range' 1 (split * split)).countP (fun i => !env.chunkOk i) := by
          apply List.countP_congr
          intro a _
          cases henv : env.chunkOk a <;> simp [henv]
        omega
      | cons a t => rfl
    rcases hdt with hdtv | hdtv <;> subst hdtv
    · cases hcopy : env.copyOk <;>
        simp [downloadHighResDem, hsvc, hsne, hab, hne, hcopy]
    · simp only [downloadHighResDem, hsvc, hsne, hab, hne, Bool.not_true,
        Bool.false_eq_true, if_false, String.reduceEq, if_true]
      by_cases hg : (geoLoop env
          (dlLoop env (split * split) (List.range' 1 (split * split)) [] 0).2.1.length
          (dlLoop env (split * split) (List.range' 1 (split * split)) [] 0).2.1 0).2.isEmpty
        <;> simp [hg]

@[simp] lemma collapse_nil : collapse [] = [] := rfl

@[simp] lemma collapse_singleton (s : St) : collapse [s] = [s] := rfl

lemma collapse_cons_cons (s t : St) (rest : List St) :
    collapse (s :: t :: rest) =
      if s = t then collapse (t :: rest) else s :: collapse (t :: rest) := rfl

/-- A run of equal statuses collapses into its first element. -/
lemma collapse_cons_all_eq (x : St) (l rest : List St) (h : ∀ s ∈ l, s = x) :
    collapse (x :: (l ++ rest)) = collapse (x :: rest) := by
  induction l with
  | nil => rfl
  | cons a t ih =>
    have ha : a = x := h a (List.mem_cons_self a t)
    subst ha
    rw [List.cons_append, collapse_cons_cons, if_pos rfl]
    exact ih fun s hs => h s (List.mem_cons_of_mem a hs)

/-- Mapping a step-monotone function over a contiguous range is `≤`-chained. -/
lemma chain'_le_map_range' (f : ℕ → ℚ) (hf : ∀ n, f n ≤ f (n + 1)) (a n : ℕ) :
    List.Chain' (fun x y => x ≤ y) ((List.range' a n).map f) := by
  induction n generalizing a with
  | zero => simp
  | succ k ih =>
    rw [List.range'_succ, List.map_cons, List.chain'_cons']
    refine ⟨?_, ih (a + 1)⟩
    intro y hy
    cases k with
    | zero => simp at hy
    | succ m =>
      rw [List.range'_succ, List.map_cons] at hy
      simp only [List.head?_cons, Option.mem_def, Option.some.injEq] at hy
      rw [← hy]
      exact hf a

/-- The per-chunk download progress `5 + (i/total) * 45` is monotone in `i`
and stays within `[5, 50]` over the chunk range. -/
lemma dlProgress_mono (total : ℕ) (htot : 0 < total) (a b : ℕ) (hab : a ≤ b) :
    5 + ((a : ℚ) / (total : ℚ)) * 45 ≤ 5 + ((b : ℚ) / (total : ℚ)) * 45 := by
  have htotQ : (0 : ℚ) < (total : ℚ) := by exact_mod_cast htot
  have hc : (a : ℚ) ≤ (b : ℚ) := by exact_mod_cast hab
  have hdiv : (a : ℚ) / (total : ℚ) ≤ (b : ℚ) / (total : ℚ) :=
    (div_le_div_right htotQ).mpr hc
  linarith

lemma dlProgress_bounds (total : ℕ) (htot : 0 < total) (x : ℚ)
    (hx : x ∈ (List.range' 1 total).map (fun i : ℕ => 5 + ((i : ℚ) / (total : ℚ)) * 45)) :
    5 ≤ x ∧ x ≤ 50 := by
  have htotQ : (0 : ℚ) < (total : ℚ) := by exact_mod_cast htot
  obtain ⟨i, hi, rfl⟩ := List.mem_map.mp hx
  rw [List.mem_range'_1] at hi
  constructor
  · have h0 : (0 : ℚ) ≤ (i : ℚ) / (total : ℚ) := by positivity
    linarith
  · have hle := dlProgress_mono total htot i total (by omega)
    have hdiv : (total : ℚ) / (total : ℚ) = 1 := div_self htotQ.ne'
    rw [hdiv] at hle
    linarith

/-- C3, amended: on every successful run of the `dem_fetcher.py` pipeline the
distinct statuses are exactly `starting → downloading → processing → complete`
and the written progress values are non-decreasing over the whole run. (The
raw fetcher violates both in its multi-chunk path; see the counterexample.) -/
theorem C3_status_monotone (split : ℕ) (dt : String) (env : Env)
    (h : (fetchDem split dt env).2 = .ok true) :
    collapse (statuses (fetchDem split dt env).1) =
      [St.starting, St.downloading, St.processing, St.complete] ∧
    List.Chain' (fun x y => x ≤ y) (progresses (fetchDem split dt env).1) := by
  cases hsvc : env.serviceOk with
  | false => simp [fetchDem, downloadHighResDem, hsvc] at h
  | true =>
  by_cases hsplit : split = 1
  · subst hsplit
    by_cases hchunk : env.chunkOk 0 = true
    · by_cases hrgb : dt = "rgb"
      · subst hrgb
        cases hcopy : env.copyOk with
        | false => simp [fetchDem, downloadHighResDem, hsvc, hchunk, hcopy] at h
        | true =>
          have hFD : (fetchDem 1 "rgb" env).1 =
              [Event.status .starting 0, Event.status .downloading 10, Event.exportChunk 0,
               Event.status .processing 80, Event.copy (.chunkFile 0),
               Event.status .complete 100] := by
            simp [fetchDem, downloadHighResDem, hsvc, hchunk, hcopy]
          constructor
          · rw [hFD]; decide
          · rw [hFD]
            simp only [progresses_cons_status, progresses_cons_export, progresses_cons_copy,
              progresses_nil]
            norm_num [List.chain'_cons]
      · by_cases hraw : dt = "raw"
        · subst hraw
          cases hgeo : env.georefOk 0 with
          | false => simp [fetchDem, downloadHighResDem, hsvc, hchunk, hrgb, hgeo] at h
          | true =>
            cases hcopy : env.copyOk with
            | false =>
              simp [fetchDem, downloadHighResDem, hsvc, hchunk, hrgb, hgeo, hcopy] at h
            | true =>
              cases hver : env.verifyOk with
              | false =>
                simp [fetchDem, downloadHighResDem, hsvc, hchunk, hrgb, hgeo, hcopy,
                  hver] at h
              | true =>
                have hFD : (fetchDem 1 "raw" env).1 =
                    [Event.status .starting 0, Event.status .downloading 10,
                     Event.exportChunk 0, Event.status .processing 50, Event.georef 0,
                     Event.status .processing 80, Event.copy (.georefFile 0),
                     Event.status .processing 90, Event.status .complete 100] := by
                  simp [fetchDem, downloadHighResDem, hsvc, hchunk, hrgb, hgeo, hcopy, hver]
                constructor
                · rw [hFD]; decide
                · rw [hFD]
                  simp only [progresses_cons_status, progresses_cons_export,
                    progresses_cons_georef, progresses_cons_copy, progresses_nil]
                  norm_num [List.chain'_cons]
        · simp [fetchDem, downloadHighResDem, hsvc, hchunk, hrgb, hraw] at h
    · simp [fetchDem, downloadHighResDem, hsvc, hchunk] at h
  · cases hab : (dlLoop env (split * split) (List.range' 1 (split * split)) [] 0).2.2.2 with
    | true => simp [fetchDem, downloadHighResDem, hsvc, hsplit, hab] at h
    | false =>
    cases hne : (dlLoop env (split * split) (List.range' 1 (split * split)) [] 0).2.1.isEmpty with
    | true => simp [fetchDem, downloadHighResDem, hsvc, hsplit, hab, hne] at h
    | false =>
    by_cases hrgb : dt = "rgb"
    · subst hrgb
      cases hcopy : env.copyOk with
      | false => simp [fetchDem, downloadHighResDem, hsvc, hsplit, hab, hne, hcopy] at h
      | true =>
        obtain ⟨hfiles, hsts, hprog⟩ := dlLoop_no_abort_spec env (split * split)
          (List.range' 1 (split * split)) [] 0 hab
        have htot : 0 < split * split := by
          rcases Nat.eq_zero_or_pos (split * split) with h0 | h0
          · exfalso
            rw [h0] at hne
            simp [dlLoop, List.range'] at hne
          · exact h0
        have hFD : (fetchDem split "rgb" env).1 =
            Event.status .starting 0 :: Event.status .downloading 5 ::
              ((dlLoop env (split * split) (List.range' 1 (split * split)) [] 0).1 ++
                [Event.status .processing 80,
                 Event.copy (.chunkFile
                   ((dlLoop env (split * split) (List.range' 1 (split * split))
                     [] 0).2.1.headD 0)),
                 Event.status .complete 100]) := by
          simp [fetchDem, downloadHighResDem, hsvc, hsplit, hab, hne, hcopy]
        constructor
        · rw [hFD]
          simp only [statuses_cons_status, statuses_append, statuses_cons_copy,
            statuses_cons_export, statuses_nil]
          rw [hsts]
          rw [collapse_cons_cons, if_neg (by decide)]
          rw [collapse_cons_all_eq St.downloading _ _
            (fun s hs => List.eq_of_mem_replicate hs)]
          decide
        · rw [hFD]
          simp only [progresses_cons_status, progresses_append, progresses_cons_copy,
            progresses_cons_export, progresses_nil]
          rw [hprog]
          refine List.chain'_cons'.mpr ⟨?_, List.chain'_cons'.mpr ⟨?_, ?_⟩⟩
          · intro y hy
            simp only [List.head?_cons, Option.mem_def, Option.some.injEq] at hy
            rw [← hy]; norm_num
          · intro y hy
            have hymem := List.mem_of_mem_head? hy
            rcases List.mem_append.mp hymem with hm | hm
            · exact (dlProgress_bounds (split * split) htot y hm).1
            · simp only [List.mem_cons, List.not_mem_nil, or_false] at hm
              rcases hm with rfl | rfl <;> norm_num
          · rw [List.chain'_append]
            refine ⟨chain'_le_map_range' _ (fun n => dlProgress_mono (split * split) htot n
              (n + 1) (by omega)) 1 (split * split), ?_, ?_⟩
            · norm_num [List.chain'_cons]
            · intro x hx y hy
              have hxmem := List.mem_of_mem_getLast? hx
              have hx50 := (dlProgress_bounds (split * split) htot x hxmem).2
              simp only [List.head?_cons, Option.mem_def, Option.some.injEq] at hy
              rw [← hy]
              linarith
    · by_cases hraw : dt = "raw"
      · subst hraw
        by_cases hg : (geoLoop env
            (dlLoop env (split * split) (List.range' 1 (split * split)) [] 0).2.1.length
            (dlLoop env (split * split) (List.range' 1 (split * split)) [] 0).2.1 0).2.isEmpty
          <;> simp [fetchDem, downloadHighResDem, hsvc, hsplit, hab, hne, hrgb, hg] at h
      · simp [fetchDem, downloadHighResDem, hsvc, hsplit, hab, hne, hrgb, hraw] at h

/-- C3 witness: a concrete successful single-chunk RGB run. -/
theorem C3_status_monotone_witness :
    (fetchDem 1 "rgb" envAllOk).2 = .ok true ∧
      (collapse (statuses (fetchDem 1 "rgb" envAllOk).1) =
        [St.starting, St.downloading, St.processing, St.complete] ∧
      List.Chain' (fun x y => x ≤ y) (progresses (fetchDem 1 "rgb" envAllOk).1)) :=
  ⟨rfl, C3_status_monotone 1 "rgb" envAllOk rfl⟩

/-- C3 counterexample: a successful 2×2 RAW run (`dem_fetcher_raw.py`)
interleaves `downloading` and `processing` statuses per chunk and its progress
drops from 50 back to 12.5, so the status sequence is not
`starting → downloading → processing → complete` and progress is not
monotone. -/
theorem C3_counterexample :
    (rawFetchDem 2 envAllOk).2 = .ok true ∧
    collapse (statuses (rawFetchDem 2 envAllOk).1) ≠
      [St.starting, St.downloading, St.processing, St.complete] ∧
    ¬ List.Chain' (fun x y => x ≤ y) (progresses (rawFetchDem 2 envAllOk).1) := by
  have hrange : List.range 2 = [0, 1] := rfl
  have hrange1 : List.range' 1 2 = [1, 2] := rfl
  have hrange3 : List.range' 3 2 = [3, 4] := rfl
  have hFD : (rawFetchDem 2 envAllOk).1 =
      [Event.status .starting 0, Event.status .downloading 0,
       Event.status .downloading 0, Event.exportChunk 1,
       Event.status .processing 50, Event.georef 1,
       Event.status .downloading (25 / 2), Event.exportChunk 2,
       Event.status .processing (225 / 4), Event.georef 2,
       Event.status .processing 75, Event.mergeCall,
       Event.status .processing 90, Event.status .complete 100] := by
    simp [rawFetchDem, rawDownloadHighResDem, rawRowLoop, rawColLoop, envAllOk,
      hrange, hrange1, hrange3]
    norm_num
  refine ⟨?_, ?_, ?_⟩
  · simp [rawFetchDem, rawDownloadHighResDem, rawRowLoop, rawColLoop, envAllOk,
      hrange, hrange1, hrange3]
  · rw [hFD]
    decide
  · rw [hFD]
    simp only [progresses_cons_status, progresses_cons_export, progresses_cons_georef,
      progresses_cons_merge, progresses_nil]
    intro hch
    norm_num [List.chain'_cons] at hch

/-- The multi-chunk download loop emits no copies to the output path. -/
lemma dlLoop_copies_nil (env : Env) (total : ℕ) (idxs files : List ℕ) (failed : ℕ) :
    copies (dlLoop env total idxs files failed).1 = [] := by
  induction idxs generalizing files failed with
  | nil => simp [dlLoop]
  | cons i rest ih =>
    by_cases hok : env.chunkOk i = true
    · simp [dlLoop, hok, ih]
    · have hokf : env.chunkOk i = false := by
        cases henv : env.chunkOk i
        · rfl
        · exact absurd henv hok
      by_cases habort : ((failed : ℚ) + 1) > (total : ℚ) * (2 / 10)
      · simp [dlLoop, hokf, habort]
      · simp [dlLoop, hokf, habort, ih]

/-- The multi-chunk download loop never invokes the merge. -/
lemma dlLoop_no_merge (env : Env) (total : ℕ) (idxs files : List ℕ) (failed : ℕ) :
    Event.mergeCall ∉ (dlLoop env total idxs files failed).1 := by
  induction idxs generalizing files failed with
  | nil => simp [dlLoop]
  | cons i rest ih =>
    by_cases hok : env.chunkOk i = true
    · simp only [dlLoop, hok, if_true, List.mem_cons]
      intro hmem
      rcases hmem with h1 | h1 | h1
      · simp at h1
      · simp at h1
      · exact ih (files ++ [i]) failed h1
    · have hokf : env.chunkOk i = false := by
        cases henv : env.chunkOk i
        · rfl
        · exact absurd henv hok
      by_cases habort : ((failed : ℚ) + 1) > (total : ℚ) * (2 / 10)
      · simp [dlLoop, hokf, habort]
      · simp only [dlLoop, hokf, Bool.false_eq_true, if_false, if_neg habort, List.mem_cons]
        intro hmem
        rcases hmem with h1 | h1 | h1
        · simp at h1
        · simp at h1
        · exact ih files (failed + 1) h1

/-- Below the failure threshold, the top-level download loop does not abort. -/
lemma dlLoop_top_no_abort (env : Env) (total : ℕ)
    (hle : (((List.range' 1 total).countP (fun i => !env.chunkOk i) : ℕ) : ℚ) ≤
      (total : ℚ) * (2 / 10)) :
    (dlLoop env total (List.range' 1 total) [] 0).2.2.2 = false := by
  have hiff := dlLoop_abort_iff env total (List.range' 1 total) [] 0
    (by simp)
  cases hcase : (dlLoop env total (List.range' 1 total) [] 0).2.2.2
  · rfl
  · exfalso
    rw [hiff] at hcase
    simp only [Nat.cast_zero, zero_add] at hcase
    exact absurd hle (not_le.mpr hcase)

/-- If not every chunk failed and the loop did not abort, at least one chunk
was downloaded. -/
lemma dlLoop_top_files_ne (env : Env) (total : ℕ)
    (hab : (dlLoop env total (List.range' 1 total) [] 0).2.2.2 = false)
    (hlt : (List.range' 1 total).countP (fun i => !env.chunkOk i) < total) :
    (dlLoop env total (List.range' 1 total) [] 0).2.1.isEmpty = false := by
  obtain ⟨hfiles, _, _⟩ := dlLoop_no_abort_spec env total (List.range' 1 total) [] 0 hab
  rw [hfiles]
  simp only [List.nil_append]
  cases hf : (List.range' 1 total).filter (fun i => env.chunkOk i) with
  | nil =>
    exfalso
    have hcnt : (List.range' 1 total).countP (fun i => env.chunkOk i) = 0 := by
      rw [List.countP_eq_length_filter, hf]
      rfl
    have hlen := List.length_eq_countP_add_countP (fun i => env.chunkOk i)
      (List.range' 1 total)
    rw [List.length_range'] at hlen
    have hcongr : (List.range' 1 total).countP
        (fun a => decide ¬(env.chunkOk a) = true) =
        (List.range' 1 total).countP (fun i => !env.chunkOk i) := by
      apply List.countP_congr
      intro a _
      cases henv : env.chunkOk a <;> simp [henv]
    omega
  | cons a t => rfl

/-- Scenario B's bbox `(152.95, -27.5, 153.05, -27.4)` at 30 m/px needs only
370×370 pixels. -/
lemma requiredWidth_scenarioB :
    requiredWidth ⟨15295/100, -275/10, 15305/100, -274/10⟩ 30 = 370 := by
  have hq : widthDeg ⟨15295/100, -275/10, 15305/100, -274/10⟩ / approxResDeg 30 = 370 := by
    unfold widthDeg approxResDeg
    norm_num
  unfold requiredWidth
  rw [hq]
  unfold pyInt
  norm_num

lemma requiredHeight_scenarioB :
    requiredHeight ⟨15295/100, -275/10, 15305/100, -274/10⟩ 30 = 370 := by
  have hq : heightDeg ⟨15295/100, -275/10, 15305/100, -274/10⟩ / approxResDeg 30 = 370 := by
    unfold heightDeg approxResDeg
    norm_num
  unfold requiredHeight
  rw [hq]
  unfold pyInt
  norm_num

/-- C8: Scenario B's bbox at 30 m/px computes grid size 1, and every
grid-size-1 job never invokes the merge; on success the single chunk is
promoted to the output path — the raw chunk itself for RGB, its georeferenced
rewrite for RAW. -/
theorem C8_single_chunk_path (dt : String) (env : Env) :
    splitRequests ⟨15295/100, -275/10, 15305/100, -274/10⟩ 30 = 1 ∧
    Event.mergeCall ∉ (fetchDem 1 dt env).1 ∧
    ((fetchDem 1 dt env).2 = .ok true →
      (dt = "rgb" ∧ copies (fetchDem 1 dt env).1 = [FileRef.chunkFile 0]) ∨
      (dt = "raw" ∧ copies (fetchDem 1 dt env).1 = [FileRef.georefFile 0])) := by
  refine ⟨?_, ?_, ?_⟩
  · unfold splitRequests
    rw [requiredWidth_scenarioB, requiredHeight_scenarioB, max_self]
    have h : Int.fdiv 370 maxRequestSize = 0 := rfl
    rw [h]
    norm_num
  · cases hsvc : env.serviceOk with
    | false => simp [fetchDem, downloadHighResDem, hsvc]
    | true =>
      cases hchunk : env.chunkOk 0 with
      | false => simp [fetchDem, downloadHighResDem, hsvc, hchunk]
      | true =>
        by_cases hrgb : dt = "rgb"
        · cases hcopy : env.copyOk <;>
            simp [fetchDem, downloadHighResDem, hsvc, hchunk, hrgb, hcopy]
        · by_cases hraw : dt = "raw"
          · cases hgeo : env.georefOk 0 with
            | false => simp [fetchDem, downloadHighResDem, hsvc, hchunk, hrgb, hraw, hgeo]
            | true =>
              cases hcopy : env.copyOk with
              | false =>
                simp [fetchDem, downloadHighResDem, hsvc, hchunk, hrgb, hraw, hgeo, hcopy]
              | true =>
                cases hver : env.verifyOk <;>
                  simp [fetchDem, downloadHighResDem, hsvc, hchunk, hrgb, hraw, hgeo,
                    hcopy, hver]
          · simp [fetchDem, downloadHighResDem, hsvc, hchunk, hrgb, hraw]
  · intro hok
    cases hsvc : env.serviceOk with
    | false => simp [fetchDem, downloadHighResDem, hsvc] at hok
    | true =>
      cases hchunk : env.chunkOk 0 with
      | false => simp [fetchDem, downloadHighResDem, hsvc, hchunk] at hok
      | true =>
        by_cases hrgb : dt = "rgb"
        · cases hcopy : env.copyOk with
          | false => simp [fetchDem, downloadHighResDem, hsvc, hchunk, hrgb, hcopy] at hok
          | true =>
            left
            refine ⟨hrgb, ?_⟩
            subst hrgb
            simp [fetchDem, downloadHighResDem, hsvc, hchunk, hcopy]
        · by_cases hraw : dt = "raw"
          · cases hgeo : env.georefOk 0 with
            | false =>
              simp [fetchDem, downloadHighResDem, hsvc, hchunk, hrgb, hraw, hgeo] at hok
            | true =>
              cases hcopy : env.copyOk with
              | false =>
                simp [fetchDem, downloadHighResDem, hsvc, hchunk, hrgb, hraw, hgeo,
                  hcopy] at hok
              | true =>
                cases hver : env.verifyOk with
                | false =>
                  simp [fetchDem, downloadHighResDem, hsvc, hchunk, hrgb, hraw, hgeo,
                    hcopy, hver] at hok
                | true =>
                  right
                  refine ⟨hraw, ?_⟩
                  subst hraw
                  simp [fetchDem, downloadHighResDem, hsvc, hchunk, hrgb, hgeo, hcopy, hver]
          · simp [fetchDem, downloadHighResDem, hsvc, hchunk, hrgb, hraw] at hok

/-- C8 witness: the single-chunk theorem at a successful RGB environment. -/
theorem C8_single_chunk_path_witness :
    (fetchDem 1 "rgb" envAllOk).2 = .ok true ∧
      Event.mergeCall ∉ (fetchDem 1 "rgb" envAllOk).1 ∧
      copies (fetchDem 1 "rgb" envAllOk).1 = [FileRef.chunkFile 0] := by
  have h := C8_single_chunk_path "rgb" envAllOk
  have hok : (fetchDem 1 "rgb" envAllOk).2 = .ok true := rfl
  refine ⟨hok, h.2.1, ?_⟩
  rcases h.2.2 hok with ⟨_, hc⟩ | ⟨hcontr, _⟩
  · exact hc
  · exact absurd hcontr (by decide)

/-- C9 counterexample: in a 2×2 RGB job where chunk 1 downloads successfully
and chunk 2 fails, the 20% failure threshold aborts the whole job: nothing is
copied to the output and the job never reports `complete`, although at least
one chunk downloaded successfully. -/
theorem C9_counterexample :
    envFirstChunkOnly.chunkOk 1 = true ∧
    Event.exportChunk 1 ∈ (fetchDem 2 "rgb" envFirstChunkOnly).1 ∧
    copies (fetchDem 2 "rgb" envFirstChunkOnly).1 = [] ∧
    (fetchDem 2 "rgb" envFirstChunkOnly).2 = .ok false ∧
    St.complete ∉ statuses (fetchDem 2 "rgb" envFirstChunkOnly).1 := by
  have hrange : List.range' 1 4 = [1, 2, 3, 4] := rfl
  have hFD : (fetchDem 2 "rgb" envFirstChunkOnly).1 =
      [Event.status .starting 0, Event.status .downloading 5,
       Event.status .downloading (65 / 4), Event.exportChunk 1,
       Event.status .downloading (55 / 2), Event.exportChunk 2,
       Event.status .failed (55 / 2)] := by
    simp [fetchDem, downloadHighResDem, dlLoop, envFirstChunkOnly, hrange]
    norm_num
  have hout : (fetchDem 2 "rgb" envFirstChunkOnly).2 = .ok false := by
    simp [fetchDem, downloadHighResDem, dlLoop, envFirstChunkOnly, hrange]
    norm_num
  refine ⟨rfl, ?_, ?_, hout, ?_⟩
  · rw [hFD]; decide
  · rw [hFD]; rfl
  · rw [hFD]; decide

/-- C9, amended: in the multi-chunk RGB path, whenever the download loop
finishes without tripping the 20% abort threshold, at least one chunk
downloaded, and the output copy succeeds, the job copies exactly the first
successfully downloaded chunk to the output (no merge, no compositing) and
ends with status `complete`. -/
theorem C9_multi_rgb_first_chunk (split : ℕ) (env : Env)
    (hsvc : env.serviceOk = true) (hs : ¬split = 1)
    (hle : (((List.range' 1 (split * split)).countP (fun i => !env.chunkOk i) : ℕ) : ℚ) ≤
      ((split * split : ℕ) : ℚ) * (2 / 10))
    (hlt : (List.range' 1 (split * split)).countP (fun i => !env.chunkOk i) < split * split)
    (hcopy : env.copyOk = true) :
    copies (fetchDem split "rgb" env).1 =
      [FileRef.chunkFile
        (((List.range' 1 (split * split)).filter (fun i => env.chunkOk i)).headD 0)] ∧
    Event.mergeCall ∉ (fetchDem split "rgb" env).1 ∧
    (fetchDem split "rgb" env).2 = .ok true ∧
    (statuses (fetchDem split "rgb" env).1).getLast? = some St.complete := by
  have hab := dlLoop_top_no_abort env (split * split) hle
  have hne := dlLoop_top_files_ne env (split * split) hab hlt
  obtain ⟨hfiles, hsts, hprog⟩ := dlLoop_no_abort_spec env (split * split)
    (List.range' 1 (split * split)) [] 0 hab
  have hFD : (fetchDem split "rgb" env).1 =
      Event.status .starting 0 :: Event.status .downloading 5 ::
        ((dlLoop env (split * split) (List.range' 1 (split * split)) [] 0).1 ++
          [Event.status .processing 80,
           Event.copy (.chunkFile
             ((dlLoop env (split * split) (List.range' 1 (split * split))
               [] 0).2.1.headD 0)),
           Event.status .complete 100]) := by
    simp [fetchDem, downloadHighResDem, hsvc, hs, hab, hne, hcopy]
  refine ⟨?_, ?_, ?_, ?_⟩
  · rw [hFD]
    simp only [copies_cons_status, copies_append, copies_cons_copy, copies_nil,
      dlLoop_copies_nil]
    rw [hfiles]
    simp
  · rw [hFD]
    simp only [List.mem_cons, List.mem_append]
    intro hmem
    rcases hmem with h1 | h1 | h1 | h1
    · simp at h1
    · simp at h1
    · exact dlLoop_no_merge env (split * split) (List.range' 1 (split * split)) [] 0 h1
    · simp at h1
  · simp [fetchDem, downloadHighResDem, hsvc, hs, hab, hne, hcopy]
  · rw [hFD]
    simp only [statuses_cons_status, statuses_append, statuses_cons_copy,
      statuses_cons_export, statuses_nil]
    have hrw : (St.starting :: St.downloading ::
        (statuses (dlLoop env (split * split) (List.range' 1 (split * split)) [] 0).1 ++
          [St.processing, St.complete])) =
        ((St.starting :: St.downloading ::
          statuses (dlLoop env (split * split) (List.range' 1 (split * split)) [] 0).1 ++
          [St.processing]) ++ [St.complete]) := by
      simp
    rw [hrw, List.getLast?_concat]

/-- C9 witness: the amended theorem at a concrete all-successful 2×2 RGB run. -/
theorem C9_multi_rgb_first_chunk_witness :
    envAllOk.serviceOk = true ∧ envAllOk.copyOk = true ∧
      copies (fetchDem 2 "rgb" envAllOk).1 =
        [FileRef.chunkFile
          (((List.range' 1 (2 * 2)).filter (fun i => envAllOk.chunkOk i)).headD 0)] ∧
      Event.mergeCall ∉ (fetchDem 2 "rgb" envAllOk).1 ∧
      (fetchDem 2 "rgb" envAllOk).2 = .ok true := by
  have h := C9_multi_rgb_first_chunk 2 envAllOk rfl (by norm_num)
    (by simp [envAllOk]; norm_num) (by simp [envAllOk]) rfl
  exact ⟨rfl, rfl, h.1, h.2.1, h.2.2.1⟩

/-- C10 witness: the threshold theorem at a 2×2 grid where chunk 1 succeeds
and the other three fail; F = 3 > 4 · 0.2, so the run aborts. -/
theorem C10_abort_threshold_witness :
    ("rgb" = "rgb" ∨ "rgb" = "raw") ∧ (2 : ℕ) ≤ 2 ∧
      envFirstChunkOnly.serviceOk = true ∧
      (((dlLoop envFirstChunkOnly (2 * 2) (List.range' 1 (2 * 2)) [] 0).2.2.2 = true ↔
        (((List.range' 1 (2 * 2)).countP (fun i => !envFirstChunkOnly.chunkOk i) : ℚ) >
          ((2 * 2 : ℕ) : ℚ) * (2 / 10))) ∧
      ((((List.range' 1 (2 * 2)).countP (fun i => !envFirstChunkOnly.chunkOk i) : ℚ) >
          ((2 * 2 : ℕ) : ℚ) * (2 / 10)) →
        (downloadHighResDem 2 "rgb" envFirstChunkOnly).2 = .ok false ∧
        St.failed ∈ statuses (downloadHighResDem 2 "rgb" envFirstChunkOnly).1) ∧
      ((((List.range' 1 (2 * 2)).countP (fun i => !envFirstChunkOnly.chunkOk i) : ℚ) ≤
          ((2 * 2 : ℕ) : ℚ) * (2 / 10)) →
        (List.range' 1 (2 * 2)).countP (fun i => !envFirstChunkOnly.chunkOk i) < 2 * 2 →
        St.processing ∈ statuses (downloadHighResDem 2 "rgb" envFirstChunkOnly).1)) :=
  ⟨Or.inl rfl, by norm_num, rfl,
    C10_abort_threshold 2 "rgb" envFirstChunkOnly (Or.inl rfl) (by norm_num) rfl⟩

end DemManager
